import Mathlib

/-!
Verification of the membership-gated request pipeline of the Telegram
SoundCloud bot (src/bot.py) against its specification.

The shallow embedding below translates the relevant parts of bot.py into
Lean definitions. Awaited chat-platform API calls are abstracted as
oracles (functions passed as parameters) giving the outcome of each call;
files on disk are explicit lists; the CSV user registry is a list of rows.
-/

set_option maxHeartbeats 1000000

namespace SCBot

/-- Membership status values reported by the chat platform for a user in a
channel (creator, administrator, member, restricted, left, kicked). -/
inductive MemberStatus where
  | creator
  | administrator
  | member
  | restricted
  | left
  | kicked
deriving DecidableEq

/-- Chat member record returned by get_chat_member: a status plus the
send-capability flag, read in bot.py with getattr(member,
"can_send_messages", False); none models an absent attribute. -/
structure ChatMember where
  status : MemberStatus
  can_send_messages : Option Bool
deriving DecidableEq

/-- Outcome of the awaited get_chat_member call for one sponsor channel, as
observed by get_unjoined_channels (bot.py lines 256-282): success with a
member record; the distinguished failure whose text contains "Member list
is inaccessible", together with the outcome of the fallback query of the
bot against its own status in the channel (none when that fallback query itself
raises); or any other failure. -/
inductive QueryOutcome where
  | ok (m : ChatMember)
  | inaccessible (botStatus : Option MemberStatus)
  | otherError
deriving DecidableEq

/-- Membership classification of bot.py lines 261-264: is_in is status in
[creator, administrator, member], overridden for a restricted member by the
can_send_messages flag (getattr default False). -/
def is_member_status (m : ChatMember) : Bool :=
  let is_in := decide (m.status ∈ [MemberStatus.creator, .administrator, .member])
  if m.status = .restricted then m.can_send_messages.getD false else is_in

/-- Loop body of get_unjoined_channels for one channel: true exactly when the
channel is appended to the unjoined list (bot.py lines 256-282). A success
appends when the user is not a member; the distinguished inaccessible
failure appends when the fallback reports the bot is neither creator nor
administrator, and appends nothing when the fallback itself raises; any
other failure appends nothing. -/
def channel_unjoined : QueryOutcome → Bool
  | .ok m => !(is_member_status m)
  | .inaccessible (some s) => decide (s ∉ [MemberStatus.creator, .administrator])
  | .inaccessible none => false
  | .otherError => false

/-- get_unjoined_channels (bot.py lines 251-283), with the per-channel API
interaction abstracted as a query oracle keyed by the raw channel entry
(the platform is called with parse_channel applied to the entry). The
Python loop appends matching entries in order, i.e. filters the list. -/
def get_unjoined_channels (query : String → QueryOutcome) (channels : List String) :
    List String :=
  channels.filter (fun ch => channel_unjoined (query ch))

/-- Row of users.csv: user_id and datetime_added (bot.py init_db). -/
structure UserRow where
  user_id : Int
  datetime_added : String
deriving DecidableEq

/-- is_user_registered (bot.py lines 125-129) over the in-file table. -/
def is_user_registered (df : List UserRow) (uid : Int) : Bool :=
  df.any (fun r => decide (r.user_id = uid))

/-- register_user (bot.py lines 132-142): returns the new table and True
exactly for a brand-new user; now is the timestamp string. -/
def register_user (df : List UserRow) (uid : Int) (now : String) :
    List UserRow × Bool :=
  if is_user_registered df uid then (df, false)
  else (df ++ [{ user_id := uid, datetime_added := now }], true)

/-- Python str.lstrip("@"): drop every leading at-sign. -/
def lstripAt (s : String) : String :=
  ⟨s.data.dropWhile (fun c => c == '@')⟩

/-- Reply outcome of /add_channel. -/
inductive AddResult where
  | alreadyPresent
  | added
deriving DecidableEq

/-- Core of add_channel_command (bot.py lines 439-452), after the admin and
argument checks; ch is context.args[0] already whitespace-stripped. -/
def add_channel_command (channels : List String) (ch : String) :
    List String × AddResult :=
  let ch_norm := lstripAt ch
  if ch_norm ∈ channels.map lstripAt then (channels, .alreadyPresent)
  else (channels ++ [ch], .added)

/-- Reply outcome of /remove_channel. -/
inductive RemoveResult where
  | notFound
  | removed
deriving DecidableEq

/-- Core of remove_channel_command (bot.py lines 466-479): the argument is
whitespace-stripped then fully normalized; entries whose normalized form
equals it are filtered out; when nothing was filtered the persisted list is
left unchanged and the command reports not-found. -/
def remove_channel_command (channels : List String) (chArg : String) :
    List String × RemoveResult :=
  let ch := lstripAt chArg
  let new_channels := channels.filter (fun c => decide (lstripAt c ≠ ch))
  if new_channels.length = channels.length then (channels, .notFound)
  else (new_channels, .removed)

/-- Loop of broadcast_command (bot.py lines 409-425): send is the outcome
oracle for the awaited per-user send_message (false models a raised error,
caught by the loop body); returns the sent and failed tallies and the list
of users the message was delivered to, in order. -/
def broadcast_command (send : Int → Bool) (user_ids : List Int) :
    Nat × Nat × List Int :=
  user_ids.foldl
    (fun acc uid =>
      if send uid then (acc.1 + 1, acc.2.1, acc.2.2 ++ [uid])
      else (acc.1, acc.2.1 + 1, acc.2.2))
    (0, 0, [])

/-- Status-message edit made by the delivery tail of handle_message. -/
inductive DeliveryStatus where
  | downloadFailed
  | success
  | sendFailed
deriving DecidableEq

/-- Delivery tail of handle_message (bot.py lines 601-629): fs is the list of
local files (the download step has already placed the artifact there when
file_path is some and the path exists), send_ok is the outcome of the
awaited send_audio (false models a raised error). Returns the file list
after the sequence and the final status-message edit: a missing or
non-existent file path edits to the download-failed notice; a successful
send removes the file and edits to success; a failed send leaves the file
and edits to the distinct sent-failed notice. -/
def handle_message_delivery (fs : List String) (file_path : Option String)
    (send_ok : Bool) : List String × DeliveryStatus :=
  match file_path with
  | none => (fs, .downloadFailed)
  | some p =>
    if p ∈ fs then
      if send_ok then (fs.erase p, .success) else (fs, .sendFailed)
    else (fs, .downloadFailed)

/-- Python regex class \s as used by re.search on str: ASCII whitespace
\t \n \v \f \r and space, plus the Unicode whitespace code points. -/
def isPySpace (c : Char) : Bool :=
  c == ' ' || c == '\t' || c == '\n' || c.toNat == 11 || c.toNat == 12 ||
  c == '\r' || c.toNat == 0x1c || c.toNat == 0x1d || c.toNat == 0x1e ||
  c.toNat == 0x1f || c.toNat == 0x85 || c.toNat == 0xa0 ||
  c.toNat == 0x1680 ||
  (decide (0x2000 ≤ c.toNat) && decide (c.toNat ≤ 0x200a)) ||
  c.toNat == 0x2028 || c.toNat == 0x2029 || c.toNat == 0x202f ||
  c.toNat == 0x205f || c.toNat == 0x3000

/-- Case-insensitive literal match: consume pattern p from the front of s,
returning the rest of s; IGNORECASE is modelled as ASCII case folding. -/
def stripPrefixCI : List Char → List Char → Option (List Char)
  | [], s => some s
  | _ :: _, [] => none
  | p :: ps, c :: cs =>
    if p.toLower = c.toLower then stripPrefixCI ps cs else none

/-- Alternation (?:soundcloud\.com|on\.soundcloud\.com) of the link pattern,
left alternative first. -/
def matchHost (s : List Char) : Option (List Char) :=
  match stripPrefixCI "soundcloud.com".data s with
  | some r => some r
  | none => stripPrefixCI "on.soundcloud.com".data s

/-- Greedy optional (?:www\.)? followed by the host alternation, with
backtracking: when consuming www. leads to no host match, retry without. -/
def matchWwwHost (s : List Char) : Option (List Char) :=
  match stripPrefixCI "www.".data s with
  | some r =>
    match matchHost r with
    | some r2 => some r2
    | none => matchHost s
  | none => matchHost s

/-- Scheme part https?:// of the link pattern, with the greedy optional s
and backtracking. -/
def matchScheme (s : List Char) : Option (List Char) :=
  match stripPrefixCI "http".data s with
  | none => none
  | some r1 =>
    match stripPrefixCI "s".data r1 with
    | some r1s =>
      match stripPrefixCI "://".data r1s with
      | some r2 => some r2
      | none => stripPrefixCI "://".data r1
    | none => stripPrefixCI "://".data r1

/-- Match of the whole pattern
https?://(?:www\.)?(?:soundcloud\.com|on\.soundcloud\.com)/[^\s]+
anchored at the start of s; returns the length of the match (the greedy
final run takes the maximal nonempty run of non-whitespace). -/
def matchLinkAt (s : List Char) : Option Nat :=
  match matchScheme s with
  | none => none
  | some r2 =>
    match matchWwwHost r2 with
    | none => none
    | some r3 =>
      match r3 with
      | '/' :: r4 =>
        let run := r4.takeWhile (fun c => !isPySpace c)
        if run.length = 0 then none
        else some (s.length - r4.length + run.length)
      | _ => none

/-- re.search: try the pattern at each position left to right and return the
leftmost match (group 0). -/
def searchFrom : List Char → Option (List Char)
  | [] => none
  | c :: rest =>
    match matchLinkAt (c :: rest) with
    | some n => some ((c :: rest).take n)
    | none => searchFrom rest

/-- extract_soundcloud_link (bot.py lines 516-519). -/
def extract_soundcloud_link (text : String) : Option String :=
  (searchFrom text.data).map (fun l => ⟨l⟩)

/-- Characters of a well-formed track link with a given path part. -/
def linkOf (body : List Char) : List Char :=
  "https://soundcloud.com/".data ++ body

/-- Reply of the link-extraction stage of handle_message. -/
inductive LinkStageResult where
  | formatHint
  | download (link : String)
deriving DecidableEq

/-- Link-extraction stage of handle_message (bot.py lines 588-595): no link
found answers with the invalid-link format hint; otherwise the pipeline
proceeds to download the extracted link. -/
def link_stage (text : String) : LinkStageResult :=
  match extract_soundcloud_link text with
  | none => .formatHint
  | some l => .download l

/-- English translation table of bot.py (TRANSLATIONS["en"]). -/
def en_table : List (String × String) :=
  [("select_language", "Please select your language / لطفا زبان خود را انتخاب کنید"),
   ("hello", "Hello {name}! 👋"),
   ("already_member", "You\x27re already a member of all channels! 🎉"),
   ("send_link", "Send me a SoundCloud link to download the track."),
   ("join_channel_first", "To use this bot, you need to join our channel(s) first."),
   ("join_and_click", "Please join the channel(s) below and then click \x27I Joined\x27."),
   ("join_channel", "Join {name}"),
   ("i_joined", "✅ I Joined"),
   ("verified", "Great! ✅ You\x27re verified! You can now use the bot."),
   ("not_joined", "❌ You haven\x27t joined all required channels yet."),
   ("join_first_then_click", "Please join all the channels first and then click \x27I Joined\x27."),
   ("need_join", "❌ You need to join the required channel(s) to use this bot."),
   ("invalid_link", "Please send me a valid SoundCloud link."),
   ("link_example", "Example: https://soundcloud.com/artist/track-name"),
   ("downloading", "⏳ Downloading track... Please wait."),
   ("download_failed", "❌ Failed to download the track."),
   ("link_check", "Please make sure the link is valid and the track is publicly available."),
   ("success", "✅ Track downloaded and sent successfully!"),
   ("send_failed", "❌ Failed to send the audio file."),
   ("downloaded_not_sent", "The file was downloaded but couldn\x27t be sent. Please try again."),
   ("error_occurred", "❌ An error occurred while processing your request."),
   ("try_again", "Please try again later or check if the link is valid.")]

/-- Persian translation table of bot.py (TRANSLATIONS["fa"]). -/
def fa_table : List (String × String) :=
  [("select_language", "لطفا زبان خود را انتخاب کنید / Please select your language"),
   ("hello", "سلام {name}! 👋"),
   ("already_member", "شما قبلاً عضو همه کانال‌ها هستید! 🎉"),
   ("send_link", "لینک SoundCloud را برای دانلود آهنگ ارسال کنید."),
   ("join_channel_first", "برای استفاده از این ربات، ابتدا باید به کانال‌های ما بپیوندید."),
   ("join_and_click", "لطفاً به کانال‌های زیر بپیوندید و سپس دکمه \"من پیوستم\" را کلیک کنید."),
   ("join_channel", "عضویت در {name}"),
   ("i_joined", "✅ من پیوستم"),
   ("verified", "عالی! ✅ شما تأیید شدید! اکنون می‌توانید از ربات استفاده کنید."),
   ("not_joined", "❌ هنوز به همه کانال‌های مورد نیاز نپیوسته‌اید."),
   ("join_first_then_click", "لطفاً ابتدا به همه کانال‌ها بپیوندید و سپس دکمه \"من پیوستم\" را کلیک کنید."),
   ("need_join", "❌ برای استفاده از این ربات باید ابتدا به کانال‌ها بپیوندید."),
   ("invalid_link", "لطفاً یک لینک معتبر SoundCloud ارسال کنید."),
   ("link_example", "مثال: https://soundcloud.com/artist/track-name"),
   ("downloading", "⏳ در حال دانلود آهنگ... لطفاً صبر کنید."),
   ("download_failed", "❌ دانلود آهنگ ناموفق بود."),
   ("link_check", "لطفاً مطمئن شوید که لینک معتبر است و آهنگ به صورت عمومی در دسترس است."),
   ("success", "✅ آهنگ با موفقیت دانلود و ارسال شد!"),
   ("send_failed", "❌ ارسال فایل صوتی ناموفق بود."),
   ("downloaded_not_sent", "فایل دانلود شد اما نتوانست ارسال شود. لطفاً دوباره تلاش کنید."),
   ("error_occurred", "❌ خطایی در پردازش درخواست شما رخ داد."),
   ("try_again", "لطفاً بعداً دوباره تلاش کنید یا بررسی کنید که لینک معتبر است.")]

/-- TRANSLATIONS dictionary of bot.py (lines 188-237), as an association
list; Python dict indexing raising KeyError is modelled by a none lookup. -/
def TRANSLATIONS : List (String × List (String × String)) :=
  [("en", en_table), ("fa", fa_table)]

/-- Python dict.get over an association list. -/
def dict_get {α : Type} (d : List (String × α)) (k : String) : Option α :=
  (d.find? (fun p => p.1 == k)).map Prod.snd

/-- get_user_language (bot.py lines 240-241): user_languages.get(uid, "en")
over the in-memory language map. -/
def get_user_language (user_languages : List (Int × String)) (user_id : Int) :
    String :=
  ((user_languages.find? (fun p => p.1 == user_id)).map Prod.snd).getD "en"

/-- Translation lookup t (bot.py lines 244-247). TRANSLATIONS[lang] is a
Python dict index, so an unknown language raises KeyError: that failure is
modelled as none. The key lookup then falls back from the selected table to
TRANSLATIONS["en"] and finally to the raw key. fmt models
text.format(double-star kwargs), applied after the lookup and only when
kwargs is nonempty. -/
def t (user_languages : List (Int × String)) (key : String) (user_id : Int)
    (fmt : Option (String → String)) : Option String :=
  match dict_get TRANSLATIONS (get_user_language user_languages user_id) with
  | none => none
  | some tbl =>
    let txt := (dict_get tbl key).getD ((dict_get en_table key).getD key)
    some (match fmt with | some f => f txt | none => txt)

/-- Query oracle for counterexamples and witnesses: every membership query
reports a user who left the channel. -/
def leftEverywhere : String → QueryOutcome :=
  fun _ => .ok { status := .left, can_send_messages := none }

theorem mem_unjoined_iff (query : String → QueryOutcome)
    (channels : List String) (ch : String) :
    ch ∈ get_unjoined_channels query channels ↔
      ch ∈ channels ∧ channel_unjoined (query ch) = true := by
  simp [get_unjoined_channels, List.mem_filter]

/-- C1 counterexample: the claim quantifies over every input channel list,
but on the duplicated input ["a", "a"] (reachable, since the persisted list
is seeded from the raw environment variable without deduplication) the
result lists the channel twice. -/
theorem c1_duplicate_input_cex :
    get_unjoined_channels leftEverywhere ["a", "a"] = ["a", "a"] ∧
    ¬ (get_unjoined_channels leftEverywhere ["a", "a"]).Nodup := by
  decide

/-- C1 (amended): for every query oracle and channel list,
get_unjoined_channels returns a sublist of the input (a subsequence
preserving relative order) of length at most the input length, and when the
input list is duplicate-free the result contains no channel twice. -/
theorem c1_unjoined_sublist (query : String → QueryOutcome)
    (channels : List String) :
    List.Sublist (get_unjoined_channels query channels) channels ∧
    (get_unjoined_channels query channels).length ≤ channels.length ∧
    (channels.Nodup → (get_unjoined_channels query channels).Nodup) :=
  ⟨List.filter_sublist channels, (List.filter_sublist channels).length_le,
    fun h => h.sublist (List.filter_sublist channels)⟩

theorem c1_unjoined_sublist_witness :
    (get_unjoined_channels leftEverywhere ["a", "b"]).Nodup :=
  (c1_unjoined_sublist leftEverywhere ["a", "b"]).2.2 (by decide)

/-- C2: a successful membership query classifies the user as joined (the
channel is excluded, i.e. the loop body does not append it) exactly per
the status table: creator, administrator and member are joined; restricted
is joined exactly when the member retains send-capability; every other
status is not joined. -/
theorem c2_status_classification (m : ChatMember) :
    channel_unjoined (QueryOutcome.ok m) = !(is_member_status m) ∧
    is_member_status m =
      (match m.status with
       | .creator => true
       | .administrator => true
       | .member => true
       | .restricted => m.can_send_messages.getD false
       | _ => false) := by
  refine ⟨rfl, ?_⟩
  obtain ⟨s, cs⟩ := m
  cases s <;> rfl

/-- C3: when the membership query fails with the distinguished
platform-denied error, the channel is reported unjoined exactly when the
fallback query of the status of the bot reports neither creator nor
administrator; any other query failure leaves the channel excluded from
the result. -/
theorem c3_inaccessible_fallback (query : String → QueryOutcome)
    (channels : List String) (ch : String) (s : MemberStatus)
    (hch : ch ∈ channels) :
    (query ch = .inaccessible (some s) →
      (ch ∈ get_unjoined_channels query channels ↔
        ¬(s = .creator ∨ s = .administrator))) ∧
    (query ch = .otherError → ch ∉ get_unjoined_channels query channels) := by
  constructor
  · intro hq
    rw [mem_unjoined_iff, hq]
    simp [hch, channel_unjoined]
  · intro hq hmem
    rw [mem_unjoined_iff, hq] at hmem
    simp [channel_unjoined] at hmem

theorem c3_inaccessible_fallback_witness :
    "a" ∈ get_unjoined_channels
      (fun _ => QueryOutcome.inaccessible (some .left)) ["a"] := by
  have h := (c3_inaccessible_fallback
    (fun _ => QueryOutcome.inaccessible (some .left)) ["a"] "a" .left
    (by decide)).1 rfl
  exact h.mpr (by decide)

/-- C10: when the fallback query of the status of the bot itself raises, the
loop body appends nothing, so the channel is excluded from the unjoined
result and the user passes the gate for it. -/
theorem c10_fallback_raises_fail_open (query : String → QueryOutcome)
    (channels : List String) (ch : String)
    (hq : query ch = .inaccessible none) :
    ch ∉ get_unjoined_channels query channels := by
  intro hmem
  rw [mem_unjoined_iff, hq] at hmem
  simp [channel_unjoined] at hmem

theorem c10_fallback_raises_witness :
    "a" ∉ get_unjoined_channels (fun _ => QueryOutcome.inaccessible none) ["a"] :=
  c10_fallback_raises_fail_open
    (fun _ => QueryOutcome.inaccessible none) ["a"] "a" rfl

/-- C4: after a successful download of the artifact p, a failed transmission
leaves the file list unchanged (p still present) and edits the status to
the sent-failed notice, while a successful transmission removes p and edits
the status to success; the two notices are distinct from each other and
from the download-failed notice. -/
theorem c4_delivery_cleanup (fs : List String) (p : String)
    (hnd : fs.Nodup) (hp : p ∈ fs) :
    handle_message_delivery fs (some p) false = (fs, .sendFailed) ∧
    p ∈ (handle_message_delivery fs (some p) false).1 ∧
    (handle_message_delivery fs (some p) true).2 = .success ∧
    p ∉ (handle_message_delivery fs (some p) true).1 ∧
    DeliveryStatus.sendFailed ≠ DeliveryStatus.success ∧
    DeliveryStatus.sendFailed ≠ DeliveryStatus.downloadFailed := by
  refine ⟨?_, ?_, ?_, ?_, by decide, by decide⟩
  · simp [handle_message_delivery, hp]
  · simp [handle_message_delivery, hp]
  · simp [handle_message_delivery, hp]
  · simp [handle_message_delivery, hp]
    exact fun hc => ((List.Nodup.mem_erase_iff hnd).mp hc).1 rfl

theorem c4_delivery_cleanup_witness :
    handle_message_delivery ["f"] (some "f") false = (["f"], .sendFailed) ∧
    "f" ∉ (handle_message_delivery ["f"] (some "f") true).1 := by
  have h := c4_delivery_cleanup ["f"] "f" (by decide) (by decide)
  exact ⟨h.1, h.2.2.2.1⟩

/-- C6: register_user only ever appends (every prior row is unchanged),
preserves uniqueness of user ids, and registering an unseen id twice leaves
exactly one row carrying that id. -/
theorem c6_register_user_invariants (df : List UserRow) (uid : Int)
    (now now' : String) :
    (∃ tail, (register_user df uid now).1 = df ++ tail) ∧
    ((df.map (fun r => r.user_id)).Nodup →
      ((register_user df uid now).1.map (fun r => r.user_id)).Nodup) ∧
    (is_user_registered df uid = false →
      ((register_user (register_user df uid now).1 uid now').1.countP
        (fun r => decide (r.user_id = uid))) = 1) := by
  by_cases h : is_user_registered df uid
  · refine ⟨⟨[], by simp [register_user, h]⟩, ?_, ?_⟩
    · intro hnd
      simpa [register_user, h] using hnd
    · intro hfalse
      rw [h] at hfalse
      cases hfalse
  · have hf : is_user_registered df uid = false := by simpa using h
    have hall : ∀ r ∈ df, ¬ r.user_id = uid := by
      intro r hr hre
      have : df.any (fun r => decide (r.user_id = uid)) = true :=
        List.any_eq_true.mpr ⟨r, hr, by simp [hre]⟩
      rw [show df.any (fun r => decide (r.user_id = uid)) =
            is_user_registered df uid from rfl, hf] at this
      cases this
    have e1 : (register_user df uid now).1 =
        df ++ [{ user_id := uid, datetime_added := now }] := by
      simp [register_user, hf]
    have hmem : uid ∉ df.map (fun r => r.user_id) := by
      intro hc
      obtain ⟨r, hr, hre⟩ := List.mem_map.mp hc
      exact hall r hr hre
    refine ⟨⟨[{ user_id := uid, datetime_added := now }], e1⟩, ?_, ?_⟩
    · intro hnd
      rw [e1, List.map_append]
      simp [List.nodup_append, hnd, hmem]
    · intro _
      rw [e1]
      have e2 : is_user_registered
          (df ++ [{ user_id := uid, datetime_added := now }]) uid = true := by
        apply List.any_eq_true.mpr
        exact ⟨{ user_id := uid, datetime_added := now }, by simp, by simp⟩
      rw [show (register_user
            (df ++ [{ user_id := uid, datetime_added := now }]) uid now').1 =
          df ++ [{ user_id := uid, datetime_added := now }] from by
        simp [register_user, e2]]
      rw [List.countP_append]
      have hz : df.countP (fun r => decide (r.user_id = uid)) = 0 :=
        List.countP_eq_zero.mpr (fun a ha => by simpa using hall a ha)
      rw [hz]
      simp [List.countP_cons]

theorem c6_register_user_invariants_witness :
    ((register_user (register_user [] 7 "t1").1 7 "t2").1.countP
      (fun r => decide (r.user_id = 7))) = 1 :=
  (c6_register_user_invariants [] 7 "t1" "t2").2.2 (by decide)

/-- C7: adding a channel whose normalized form is already present leaves the
list unchanged and reports already-present (in particular ["a", "b"] plus
"a" stays ["a", "b"]); absence of duplicate normalized entries is preserved
by both admin mutations; and removing a present channel persists the full
list with every normalized match filtered out. -/
theorem c7_channel_list_invariants (channels : List String) (ch : String) :
    (lstripAt ch ∈ channels.map lstripAt →
      add_channel_command channels ch = (channels, .alreadyPresent)) ∧
    ((channels.map lstripAt).Nodup →
      ((add_channel_command channels ch).1.map lstripAt).Nodup ∧
      ((remove_channel_command channels ch).1.map lstripAt).Nodup) ∧
    (lstripAt ch ∈ channels.map lstripAt →
      remove_channel_command channels ch =
        (channels.filter (fun c => decide (lstripAt c ≠ lstripAt ch)),
         .removed)) ∧
    add_channel_command ["a", "b"] "a" = (["a", "b"], .alreadyPresent) := by
  refine ⟨?_, ?_, ?_, by decide⟩
  · intro hmem
    simp [add_channel_command, hmem]
  · intro hnd
    constructor
    · by_cases hmem : lstripAt ch ∈ channels.map lstripAt
      · simpa [add_channel_command, hmem] using hnd
      · rw [show (add_channel_command channels ch).1 = channels ++ [ch] from by
          simp [add_channel_command, hmem]]
        rw [List.map_append]
        simp [List.nodup_append, hnd, hmem]
    · by_cases hlen :
        (channels.filter (fun c => decide (lstripAt c ≠ lstripAt ch))).length =
          channels.length
      · rw [show (remove_channel_command channels ch).1 = channels from by
          simp only [remove_channel_command]
          rw [if_pos hlen]]
        exact hnd
      · rw [show (remove_channel_command channels ch).1 =
            channels.filter (fun c => decide (lstripAt c ≠ lstripAt ch)) from by
          simp only [remove_channel_command]
          rw [if_neg hlen]]
        exact hnd.sublist ((List.filter_sublist channels).map lstripAt)
  · intro hmem
    obtain ⟨c, hc, hce⟩ := List.mem_map.mp hmem
    have hlen :
        (channels.filter (fun x => decide (lstripAt x ≠ lstripAt ch))).length ≠
          channels.length := by
      intro heq
      have hself := (List.filter_sublist channels).eq_of_length heq
      have hcf : c ∈ channels.filter (fun x => decide (lstripAt x ≠ lstripAt ch)) := by
        rw [hself]
        exact hc
      have := (List.mem_filter.mp hcf).2
      simp [hce] at this
    simp only [remove_channel_command]
    rw [if_neg hlen]

theorem c7_channel_list_invariants_witness :
    add_channel_command ["a", "b"] "a" = (["a", "b"], .alreadyPresent) ∧
    remove_channel_command ["@a", "b"] "a" = (["b"], .removed) := by
  have h1 := (c7_channel_list_invariants ["a", "b"] "a").2.2.2
  have h2 := (c7_channel_list_invariants ["@a", "b"] "a").2.2.1 (by decide)
  exact ⟨h1, h2.trans (by decide)⟩

theorem broadcast_foldl (send : Int → Bool) (uids : List Int) :
    ∀ (a b : Nat) (d : List Int),
      uids.foldl
        (fun acc uid =>
          if send uid then (acc.1 + 1, acc.2.1, acc.2.2 ++ [uid])
          else (acc.1, acc.2.1 + 1, acc.2.2))
        (a, b, d) =
      (a + (uids.filter send).length,
       b + (uids.filter (fun u => !(send u))).length,
       d ++ uids.filter send) := by
  induction uids with
  | nil => intro a b d; simp
  | cons x xs ih =>
    intro a b d
    cases hx : send x with
    | true =>
      simp only [List.foldl_cons, hx, if_true, List.filter_cons, if_pos]
      rw [ih]
      simp [List.filter_cons, hx, List.append_assoc]
      omega
    | false =>
      simp only [List.foldl_cons, hx, Bool.false_eq_true, if_false]
      rw [ih]
      simp [List.filter_cons, hx]
      omega

theorem filter_length_partition (p : Int → Bool) (l : List Int) :
    (l.filter p).length + (l.filter (fun u => !(p u))).length = l.length := by
  induction l with
  | nil => rfl
  | cons x xs ih =>
    cases hx : p x <;> simp [List.filter_cons, hx] <;> omega

/-- C8: the broadcast loop visits every registered user id, a failed send
never aborts the loop, the sent tally counts exactly the successful sends
and the failed tally the failing ones (so sent plus failed equals the
number of registered ids), and every user whose send succeeds receives the
message (in particular for [1, 2, 3] with the send to 2 raising, the tally
is 2 sent, 1 failed, and 3 is still delivered to). -/
theorem c8_broadcast_tally (send : Int → Bool) (user_ids : List Int) :
    (broadcast_command send user_ids).1 = (user_ids.filter send).length ∧
    (broadcast_command send user_ids).2.1 =
      (user_ids.filter (fun u => !(send u))).length ∧
    (broadcast_command send user_ids).1 + (broadcast_command send user_ids).2.1 =
      user_ids.length ∧
    (broadcast_command send user_ids).2.2 = user_ids.filter send ∧
    broadcast_command (fun u => decide (u ≠ 2)) [1, 2, 3] = (2, 1, [1, 3]) := by
  have h := broadcast_foldl send user_ids 0 0 []
  have hb : broadcast_command send user_ids =
      ((user_ids.filter send).length,
       (user_ids.filter (fun u => !(send u))).length,
       user_ids.filter send) := by
    rw [broadcast_command, h]
    simp
  rw [hb]
  refine ⟨rfl, rfl, filter_length_partition send user_ids, rfl, by decide⟩

/-- C9: under the data-model invariant that every stored locale is en or fa,
the translation lookup never fails: it resolves the table of the locale of
the user (defaulting to en), looks the key up there, falls back to the en
table, returns the raw key when absent from both, and applies the
substitution function after the lookup. -/
theorem c9_translation_total (user_languages : List (Int × String))
    (key : String) (user_id : Int) (fmt : Option (String → String))
    (hlangs : ∀ p ∈ user_languages, p.2 = "en" ∨ p.2 = "fa") :
    ∃ tbl, dict_get TRANSLATIONS (get_user_language user_languages user_id) =
        some tbl ∧
      t user_languages key user_id fmt =
        some ((match fmt with | some f => f | none => fun s => s)
          ((dict_get tbl key).getD ((dict_get en_table key).getD key))) := by
  have hlang : get_user_language user_languages user_id = "en" ∨
      get_user_language user_languages user_id = "fa" := by
    unfold get_user_language
    cases hf : user_languages.find? (fun p => p.1 == user_id) with
    | none => simp
    | some q =>
      have hq := List.mem_of_find?_eq_some hf
      simpa using hlangs q hq
  obtain h | h := hlang
  · refine ⟨en_table, by rw [h]; rfl, ?_⟩
    unfold t
    rw [h]
    cases fmt <;> rfl
  · refine ⟨fa_table, by rw [h]; rfl, ?_⟩
    unfold t
    rw [h]
    cases fmt <;> rfl

theorem c9_translation_total_witness :
    t [((5 : Int), "fa")] "hello" 5 none = some "سلام {name}! 👋" := by
  obtain ⟨tbl, h1, h2⟩ := c9_translation_total [((5 : Int), "fa")] "hello" 5 none
    (by decide)
  have e : dict_get TRANSLATIONS (get_user_language [((5 : Int), "fa")] 5) =
      some fa_table := by rfl
  rw [e] at h1
  cases h1
  exact h2.trans (by rfl)

theorem takeWhileAppend (p : Char → Bool) (l r : List Char)
    (hl : ∀ c ∈ l, p c = true) (hr : ∀ c ∈ r.take 1, p c = false) :
    (l ++ r).takeWhile p = l := by
  induction l with
  | nil =>
    cases r with
    | nil => rfl
    | cons c cs =>
      have hc := hr c (by simp)
      simp [List.takeWhile_cons, hc]
  | cons x xs ih =>
    have hx := hl x (by simp)
    simp only [List.cons_append, List.takeWhile_cons, hx, if_true]
    rw [ih (fun c hc => hl c (by simp [hc]))]

theorem searchFrom_skip (pre rest : List Char)
    (h : ∀ i, i < pre.length → matchLinkAt ((pre ++ rest).drop i) = none) :
    searchFrom (pre ++ rest) = searchFrom rest := by
  induction pre with
  | nil => rfl
  | cons c cs ih =>
    have h0 := h 0 (by simp)
    simp only [List.drop_zero] at h0
    rw [List.cons_append] at h0 ⊢
    rw [show searchFrom (c :: (cs ++ rest)) =
        (match matchLinkAt (c :: (cs ++ rest)) with
         | some n => some ((c :: (cs ++ rest)).take n)
         | none => searchFrom (cs ++ rest)) from rfl, h0]
    exact ih (fun i hi => by
      have := h (i + 1) (by simpa using Nat.succ_lt_succ hi)
      rwa [List.cons_append, List.drop_succ_cons] at this)

theorem searchFrom_none (s : List Char)
    (h : ∀ i, i < s.length → matchLinkAt (s.drop i) = none) :
    searchFrom s = none := by
  induction s with
  | nil => rfl
  | cons c cs ih =>
    have h0 := h 0 (by simp)
    simp only [List.drop_zero] at h0
    rw [show searchFrom (c :: cs) =
        (match matchLinkAt (c :: cs) with
         | some n => some ((c :: cs).take n)
         | none => searchFrom cs) from rfl, h0]
    exact ih (fun i hi => by
      have := h (i + 1) (by simpa using Nat.succ_lt_succ hi)
      rwa [List.drop_succ_cons] at this)

theorem matchLinkAt_link (body suf : List Char) (hb : body ≠ [])
    (hbody : ∀ c ∈ body, isPySpace c = false)
    (hsuf : ∀ c ∈ suf.take 1, isPySpace c = true) :
    matchLinkAt (linkOf body ++ suf) = some (23 + body.length) := by
  have e1 : linkOf body ++ suf =
      "https://".data ++ ("soundcloud.com".data ++ ('/' :: (body ++ suf))) := by
    rw [show linkOf body =
        ("https://".data ++ ("soundcloud.com".data ++ ['/'])) ++ body from by
      rw [linkOf]; rfl]
    simp [List.append_assoc]
  have hs : matchScheme
      ("https://".data ++ ("soundcloud.com".data ++ ('/' :: (body ++ suf)))) =
      some ("soundcloud.com".data ++ ('/' :: (body ++ suf))) := rfl
  have hw : matchWwwHost ("soundcloud.com".data ++ ('/' :: (body ++ suf))) =
      some ('/' :: (body ++ suf)) := rfl
  have hrun : (body ++ suf).takeWhile (fun c => !isPySpace c) = body :=
    takeWhileAppend _ body suf (fun c hc => by simp [hbody c hc])
      (fun c hc => by simp [hsuf c hc])
  have hlen : body.length ≠ 0 := by
    simpa [List.length_eq_zero] using hb
  rw [e1]
  simp only [matchLinkAt, hs, hw, hrun]
  rw [if_neg hlen]
  have l1 : ("https://".data).length = 8 := rfl
  have l2 : ("soundcloud.com".data).length = 14 := rfl
  simp [List.length_append, l1, l2]
  omega

/-- C5: the link extractor returns exactly the track URL embedded in a
message (for every decomposition of the text into a prefix with no earlier
pattern match, a well-formed link whose path is a nonempty run of
non-whitespace characters, and a remainder starting with whitespace or
empty), and for every text in which the pattern matches at no position it
returns nothing and the pipeline answers with the format-hint error. -/
theorem c5_extract_link :
    (∀ pre body suf : List Char,
      body ≠ [] →
      (∀ c ∈ body, isPySpace c = false) →
      (∀ c ∈ suf.take 1, isPySpace c = true) →
      (∀ i, i < pre.length →
        matchLinkAt ((pre ++ (linkOf body ++ suf)).drop i) = none) →
      extract_soundcloud_link ⟨pre ++ (linkOf body ++ suf)⟩ =
        some ⟨linkOf body⟩ ∧
      link_stage ⟨pre ++ (linkOf body ++ suf)⟩ = .download ⟨linkOf body⟩) ∧
    (∀ text : String,
      (∀ i, i < text.data.length → matchLinkAt (text.data.drop i) = none) →
      extract_soundcloud_link text = none ∧ link_stage text = .formatHint) := by
  constructor
  · intro pre body suf hb hbody hsuf hpre
    have hsearch : searchFrom (pre ++ (linkOf body ++ suf)) =
        searchFrom (linkOf body ++ suf) := searchFrom_skip pre _ hpre
    have hm : matchLinkAt (linkOf body ++ suf) = some (23 + body.length) :=
      matchLinkAt_link body suf hb hbody hsuf
    have hcons : linkOf body ++ suf =
        'h' :: (("ttps://soundcloud.com/".data ++ body) ++ suf) := by
      rw [linkOf]; rfl
    have hsf : searchFrom (linkOf body ++ suf) =
        some ((linkOf body ++ suf).take (23 + body.length)) := by
      rw [hcons] at hm ⊢
      rw [show searchFrom ('h' :: (("ttps://soundcloud.com/".data ++ body) ++ suf)) =
          (match matchLinkAt
              ('h' :: (("ttps://soundcloud.com/".data ++ body) ++ suf)) with
           | some n =>
             some (('h' :: (("ttps://soundcloud.com/".data ++ body) ++ suf)).take n)
           | none =>
             searchFrom (("ttps://soundcloud.com/".data ++ body) ++ suf)) from rfl,
        hm]
    have htake : (linkOf body ++ suf).take (23 + body.length) = linkOf body := by
      have h23 : (linkOf body).length = 23 + body.length := by
        rw [linkOf, List.length_append]
        rfl
      rw [← h23]
      exact List.take_left _ _
    have hex : extract_soundcloud_link ⟨pre ++ (linkOf body ++ suf)⟩ =
        some ⟨linkOf body⟩ := by
      show (searchFrom (pre ++ (linkOf body ++ suf))).map
        (fun l => (⟨l⟩ : String)) = some ⟨linkOf body⟩
      rw [hsearch, hsf, htake]
      rfl
    exact ⟨hex, by simp [link_stage, hex]⟩
  · intro text h
    have hs : searchFrom text.data = none := searchFrom_none text.data h
    have hex : extract_soundcloud_link text = none := by
      simp [extract_soundcloud_link, hs]
    exact ⟨hex, by simp [link_stage, hex]⟩

theorem c5_extract_link_witness :
    extract_soundcloud_link
        ⟨"check this ".data ++ (linkOf "x/y".data ++ " please".data)⟩ =
      some ⟨linkOf "x/y".data⟩ ∧
    link_stage "hello world" = .formatHint := by
  have h1 := c5_extract_link.1 "check this ".data "x/y".data " please".data
    (by decide) (by decide) (by decide) (by decide)
  have h2 := c5_extract_link.2 "hello world" (by decide)
  exact ⟨h1.1, h2.2⟩

end SCBot
